import Mathlib

/-!
Verification of the stationery-manager backend (`src/app.py`).

The file shallowly embeds the Flask application's data model and the
endpoint handlers as pure Lean functions over an explicit database state.
JSON payloads are association lists of string keys and `JVal` values;
Python truthiness, `dict.get`, `date.fromisoformat` and werkzeug's
password hashing are modelled by executable functions.  Each mutating
endpoint takes an extra `commitOk : Bool` flag standing for success or
failure of `db.session.commit()`: on failure the handler rolls back and
the state is returned unchanged, exactly as in the source.
-/

namespace Stationery

/-- A JSON value, as produced by `request.get_json()`.  Dynamic item
attributes and payload fields are arbitrary JSON scalars; nested
structure is irrelevant to every endpoint (values are passed through
opaquely), so scalars suffice. -/
inductive JVal where
  | null
  | bool (b : Bool)
  | num (n : Int)
  | str (s : String)
deriving DecidableEq, Repr

/-- Python truthiness, as used by `not all([...])` and
`if data.get(...)`. -/
def JVal.truthy : JVal → Bool
  | .null => false
  | .bool b => b
  | .num n => n != 0
  | .str s => s != ""

/-- Strings in the credential subsystem.  `raw s` is an ordinary string;
`hashed salt pw` is the werkzeug-formatted string
`"method$<salt>$<digest of pw>"` produced by `generate_password_hash(pw)`.
The constructor form keeps the encoding injective and makes
`check_password_hash` (parse the stored string, re-hash the submitted
password with the recovered salt, compare digests) directly computable. -/
inductive PwStr where
  | raw (s : String)
  | hashed (salt : Nat) (pw : PwStr)
deriving DecidableEq, Repr

/-- Truthiness of a credential string: the empty string is falsy, any
hash-formatted string is nonempty hence truthy. -/
def PwStr.truthy : PwStr → Bool
  | .raw s => s != ""
  | .hashed _ _ => true

/-- `werkzeug.security.check_password_hash(stored, password)`: if the
stored string parses as `method$salt$digest`, compare the digest of the
submitted password (an ideal collision-free hash); on a non-hash stored
string or a missing password the call returns false / raises, which the
caller's `except: pass` makes indistinguishable from false. -/
def checkPasswordHash : PwStr → Option PwStr → Bool
  | PwStr.hashed _ pw, some p => decide (pw = p)
  | _, _ => false

/-- A calendar date, the value of Python's `datetime.date`. -/
structure PyDate where
  year : Nat
  month : Nat
  day : Nat
deriving DecidableEq, Repr

def toDigit (c : Char) : Option Nat :=
  if c.isDigit then some (c.toNat - 48) else none

def isLeap (y : Nat) : Bool :=
  y % 4 == 0 && (y % 100 != 0 || y % 400 == 0)

def daysInMonth (y m : Nat) : Nat :=
  if m = 2 then (if isLeap y then 29 else 28)
  else if m = 4 ∨ m = 6 ∨ m = 9 ∨ m = 11 then 30
  else 31

/-- `datetime.date.fromisoformat`: accepts exactly `YYYY-MM-DD` with a
valid calendar date (year 1–9999), otherwise raises (modelled as
`none`). -/
def parseIsoDate (s : String) : Option PyDate :=
  match s.toList with
  | [y1, y2, y3, y4, h1, m1, m2, h2, d1, d2] =>
    if h1 = '-' ∧ h2 = '-' then
      match toDigit y1, toDigit y2, toDigit y3, toDigit y4,
            toDigit m1, toDigit m2, toDigit d1, toDigit d2 with
      | some a, some b, some c, some d, some e, some f, some g, some h =>
        let y := ((a * 10 + b) * 10 + c) * 10 + d
        let m := e * 10 + f
        let dy := g * 10 + h
        if 1 ≤ y ∧ y ≤ 9999 ∧ 1 ≤ m ∧ m ≤ 12 ∧ 1 ≤ dy ∧ dy ≤ daysInMonth y m then
          some ⟨y, m, dy⟩
        else none
      | _, _, _, _, _, _, _, _ => none
    else none
  | _ => none

def pad2 (n : Nat) : String :=
  if n < 10 then "0" ++ toString n else toString n

def pad4 (n : Nat) : String :=
  if n < 10 then "000" ++ toString n
  else if n < 100 then "00" ++ toString n
  else if n < 1000 then "0" ++ toString n
  else toString n

/-- `date.isoformat()`: zero-padded `YYYY-MM-DD`. -/
def PyDate.isoformat (d : PyDate) : String :=
  pad4 d.year ++ "-" ++ pad2 d.month ++ "-" ++ pad2 d.day

/-- `date.fromisoformat` applied to a JSON value: a non-string argument
raises `TypeError` (modelled as `none`, like a parse failure). -/
def fromiso : JVal → Option PyDate
  | JVal.str s => parseIsoDate s
  | _ => none

/-- Row of the `user` table (the surrogate integer id plays no role in
any endpoint and is omitted). -/
structure User where
  username : String
  password : PwStr
  role : String
deriving DecidableEq, Repr

/-- Row of the `category` table. -/
structure Category where
  id : String
  name : String
deriving DecidableEq, Repr

/-- Row of the `item` table.  `name`, `department` and `category_id` are
`JVal` because the PUT handler writes raw payload values into them;
the NOT NULL constraints on `name`/`department` are enforced at commit. -/
structure Item where
  id : String
  name : JVal
  department : JVal
  issued_date : PyDate
  category_id : JVal
  dynamic_attributes : List (String × JVal)
deriving DecidableEq, Repr

/-- Python dict assignment `d[k] = v`: replace the existing binding in
place, else append. -/
def upsert : List (String × JVal) → String → JVal → List (String × JVal)
  | [], k, v => [(k, v)]
  | p :: rest, k, v => if p.1 = k then (k, v) :: rest else p :: upsert rest k v

/-- Python `dict.update`: fold `d[k] = v` over the second dict. -/
def dictUpdate (d u : List (String × JVal)) : List (String × JVal) :=
  u.foldl (fun acc kv => upsert acc kv.1 kv.2) d

/-- The fixed-field dictionary built first by `Item.to_dict`. -/
def Item.fixedDict (it : Item) : List (String × JVal) :=
  [("id", JVal.str it.id), ("name", it.name), ("department", it.department),
   ("issuedDate", JVal.str it.issued_date.isoformat), ("categoryId", it.category_id)]

/-- `Item.to_dict`: the fixed fields, then
`if self.dynamic_attributes: data.update(self.dynamic_attributes)`. -/
def Item.to_dict (it : Item) : List (String × JVal) :=
  if it.dynamic_attributes.isEmpty then it.fixedDict
  else dictUpdate it.fixedDict it.dynamic_attributes

/-- The whole database state.  `nextSalt` models the stream of fresh
salts drawn by `generate_password_hash`. -/
structure DB where
  users : List User
  categories : List Category
  items : List Item
  nextSalt : Nat
deriving DecidableEq, Repr

def emptyDB : DB := ⟨[], [], [], 0⟩

/-- `User.query.filter_by(username=username).first()`; a missing
username field (`None`) matches no row. -/
def userLookup (db : DB) (username : Option String) : Option User :=
  username.bind (fun un => db.users.find? (fun v => v.username == un))

/-- Result of `POST /api/login`: 200 with `{username, role}` or the 401
`"Invalid username or password"` response. -/
inductive LoginRes where
  | ok (username : String) (role : String)
  | invalid
deriving DecidableEq, Repr

/-- The `login` handler.  `commitOk` models success of the best-effort
commit that persists the plaintext-to-hash rewrite; its failure is
caught, rolled back, and the login still succeeds. -/
def login (db : DB) (username : Option String) (password : Option PwStr)
    (commitOk : Bool) : LoginRes × DB :=
  match userLookup db username with
  | none => (LoginRes.invalid, db)
  | some u =>
    if checkPasswordHash u.password password then (LoginRes.ok u.username u.role, db)
    else
      match password with
      | some p =>
        if u.password = p then
          if commitOk then
            (LoginRes.ok u.username u.role,
             { db with
                users := db.users.map (fun v =>
                  if v.username = u.username then { v with password := PwStr.hashed db.nextSalt p } else v),
                nextSalt := db.nextSalt + 1 })
          else (LoginRes.ok u.username u.role, db)
        else (LoginRes.invalid, db)
      | none => (LoginRes.invalid, db)

/-- Result of `POST /api/register`: 201, 400, 409 (username taken),
403 (admin exists) or 500. -/
inductive RegRes where
  | created (username : String) (role : String)
  | badRequest
  | conflictUsername
  | conflictAdmin
  | serverError
deriving DecidableEq, Repr

/-- The `register` handler.  `role = none` stands for an absent `role`
key, defaulted to `"buyer"` by `data.get('role', 'buyer')`. -/
def register (db : DB) (username : Option String) (password : Option PwStr)
    (role : Option String) (commitOk : Bool) : RegRes × DB :=
  match username, password with
  | some un, some pw =>
    let r := role.getD "buyer"
    if un = "" ∨ pw.truthy = false ∨ ¬ (r = "admin" ∨ r = "buyer") then (RegRes.badRequest, db)
    else if (db.users.find? (fun v => v.username == un)).isSome then (RegRes.conflictUsername, db)
    else if r = "admin" ∧ (db.users.find? (fun v => v.role == "admin")).isSome then
      (RegRes.conflictAdmin, db)
    else if commitOk then
      (RegRes.created un r,
       { db with users := db.users ++ [⟨un, PwStr.hashed db.nextSalt pw, r⟩],
                 nextSalt := db.nextSalt + 1 })
    else (RegRes.serverError, db)
  | _, _ => (RegRes.badRequest, db)

/-- The `__main__` startup block: create the default admin account iff
no user with USERNAME `admin` exists (the check is by username, not by
role).  Any failure is caught and skipped. -/
def bootstrap (db : DB) (commitOk : Bool) : DB :=
  if (db.users.find? (fun v => v.username == "admin")).isSome then db
  else if commitOk then
    { db with users := db.users ++ [⟨"admin", PwStr.hashed db.nextSalt (PwStr.raw "admin"), "admin"⟩],
              nextSalt := db.nextSalt + 1 }
  else db

/-- Result of the category endpoints: 201, 204, 400, 404, 409/500-as-409,
or 500. -/
inductive CatRes where
  | created
  | noContent
  | badRequest
  | conflict
  | notFound
  | serverError
deriving DecidableEq, Repr

/-- The `create_category` handler.  `newId` is the generated
`cat-<uuid8>`; a unique-name violation (or any other commit failure) is
reported as 409. -/
def create_category (db : DB) (name : Option String) (newId : String)
    (commitOk : Bool) : CatRes × DB :=
  match name with
  | none => (CatRes.badRequest, db)
  | some n =>
    if n = "" then (CatRes.badRequest, db)
    else if commitOk ∧ db.categories.all (fun c => ! (c.name == n))
           ∧ db.categories.all (fun c => ! (c.id == newId)) then
      (CatRes.created, { db with categories := db.categories ++ [⟨newId, n⟩] })
    else (CatRes.conflict, db)

/-- The `category_detail` handler (`DELETE /api/categories/<id>`):
404 via `get_or_404`, then in one transaction set `category_id = NULL`
on every item of the category and delete the category row; on commit
failure roll back both. -/
def category_detail (db : DB) (category_id : String) (commitOk : Bool) :
    CatRes × DB :=
  match db.categories.find? (fun c => c.id == category_id) with
  | none => (CatRes.notFound, db)
  | some _ =>
    if commitOk then
      (CatRes.noContent,
       { db with
          items := db.items.map (fun it =>
            if it.category_id = JVal.str category_id then { it with category_id := JVal.null } else it),
          categories := db.categories.filter (fun c => ! (c.id == category_id)) })
    else (CatRes.serverError, db)

/-- Result of the item endpoints.  `unhandled` is an exception escaping
the handler (Flask's plain 500), distinct from the handled 500 body. -/
inductive ItemRes where
  | ok (body : List (String × JVal))
  | created (body : List (String × JVal))
  | noContent
  | badRequest
  | notFound
  | serverError
  | unhandled
deriving DecidableEq, Repr

def ItemRes.isOk : ItemRes → Bool
  | .ok _ => true
  | _ => false

def ItemRes.isCreated : ItemRes → Bool
  | .created _ => true
  | _ => false

/-- The fixed-field name set `core_fields` of the item handlers. -/
def coreFields : List String := ["name", "department", "issuedDate", "categoryId"]

/-- `data.get(k)`, with Python's `None` for an absent key rendered as
JSON null. -/
def field (data : List (String × JVal)) (k : String) : JVal :=
  (data.lookup k).getD JVal.null

/-- The `create_item` handler.  `newId` is the generated `item-<uuid8>`;
an exception inside the `try` (in particular `date.fromisoformat` on a
bad `issuedDate`, or a primary-key collision at commit) is caught and
reported as a handled 500. -/
def create_item (db : DB) (data : List (String × JVal)) (newId : String)
    (commitOk : Bool) : ItemRes × DB :=
  if ¬ ((field data "name").truthy ∧ (field data "department").truthy
        ∧ (field data "issuedDate").truthy) then
    (ItemRes.badRequest, db)
  else
    match fromiso (field data "issuedDate") with
    | none => (ItemRes.serverError, db)
    | some d =>
      let it : Item :=
        { id := newId,
          name := field data "name",
          department := field data "department",
          issued_date := d,
          category_id := field data "categoryId",
          dynamic_attributes := data.filter (fun kv => ! coreFields.contains kv.1) }
      if commitOk ∧ db.items.all (fun x => ! (x.id == newId)) then
        (ItemRes.created it.to_dict, { db with items := db.items ++ [it] })
      else (ItemRes.serverError, db)

/-- The PUT branch of `item_detail`.  The `date.fromisoformat` call sits
outside the `try`, so a bad truthy `issuedDate` raises out of the
handler (`unhandled`); a falsy `issuedDate` is skipped.  At commit the
NOT NULL constraints on `name`/`department` must hold, else the handled
500 path rolls back. -/
def item_detail_put (db : DB) (item_id : String) (data : List (String × JVal))
    (commitOk : Bool) : ItemRes × DB :=
  match db.items.find? (fun x => x.id == item_id) with
  | none => (ItemRes.notFound, db)
  | some item =>
    match (if (field data "issuedDate").truthy then fromiso (field data "issuedDate")
           else some item.issued_date) with
    | none => (ItemRes.unhandled, db)
    | some issued2 =>
      let item2 : Item :=
        { id := item.id,
          name := (data.lookup "name").getD item.name,
          department := (data.lookup "department").getD item.department,
          issued_date := issued2,
          category_id := (data.lookup "categoryId").getD item.category_id,
          dynamic_attributes := data.filter (fun kv => ! coreFields.contains kv.1) }
      if commitOk ∧ item2.name ≠ JVal.null ∧ item2.department ≠ JVal.null then
        (ItemRes.ok item2.to_dict,
         { db with items := db.items.map (fun x => if x.id == item_id then item2 else x) })
      else (ItemRes.serverError, db)

/-- The DELETE branch of `item_detail`. -/
def item_detail_delete (db : DB) (item_id : String) (commitOk : Bool) :
    ItemRes × DB :=
  match db.items.find? (fun x => x.id == item_id) with
  | none => (ItemRes.notFound, db)
  | some _ =>
    if commitOk then
      (ItemRes.noContent, { db with items := db.items.filter (fun x => ! (x.id == item_id)) })
    else (ItemRes.serverError, db)

/-- Number of users with `role = 'admin'`. -/
def adminCount (db : DB) : Nat :=
  db.users.countP (fun u => u.role == "admin")

/-- States reachable from an empty database by the mutating operations.
The index says whether startup runs (`bootstrap` executes on every
`python app.py` start, hence may occur at any point between requests;
with `false` only the HTTP-exposed operations act). -/
inductive Reach : Bool → DB → Prop where
  | step_init (b : Bool) : Reach b emptyDB
  | step_register (b : Bool) (db : DB) (un : Option String) (pw : Option PwStr)
      (r : Option String) (cok : Bool) :
      Reach b db → Reach b (register db un pw r cok).2
  | step_login (b : Bool) (db : DB) (un : Option String) (pw : Option PwStr) (cok : Bool) :
      Reach b db → Reach b (login db un pw cok).2
  | step_bootstrap (db : DB) (cok : Bool) :
      Reach true db → Reach true (bootstrap db cok)
  | step_create_category (b : Bool) (db : DB) (n : Option String) (newId : String) (cok : Bool) :
      Reach b db → Reach b (create_category db n newId cok).2
  | step_category_detail (b : Bool) (db : DB) (cid : String) (cok : Bool) :
      Reach b db → Reach b (category_detail db cid cok).2
  | step_create_item (b : Bool) (db : DB) (data : List (String × JVal)) (newId : String) (cok : Bool) :
      Reach b db → Reach b (create_item db data newId cok).2
  | step_item_detail_put (b : Bool) (db : DB) (iid : String) (data : List (String × JVal)) (cok : Bool) :
      Reach b db → Reach b (item_detail_put db iid data cok).2
  | step_item_detail_delete (b : Bool) (db : DB) (iid : String) (cok : Bool) :
      Reach b db → Reach b (item_detail_delete db iid cok).2

/-! ## Helper lemmas about association-list dictionaries -/

lemma lookup_cons_eq (a k : String) (v : JVal) (es : List (String × JVal)) :
    ((k, v) :: es).lookup a = if a = k then some v else es.lookup a := by
  by_cases h : a = k
  · simp [List.lookup, h]
  · have hb : (a == k) = false := by simpa using h
    simp [List.lookup, hb, h]

lemma lookup_none_of_not_mem (k : String) (l : List (String × JVal))
    (h : ¬ k ∈ l.map Prod.fst) : l.lookup k = none := by
  induction l with
  | nil => simp [List.lookup]
  | cons hd tl ih =>
    simp only [List.map_cons, List.mem_cons] at h
    push_neg at h
    rw [show hd = (hd.1, hd.2) from rfl, lookup_cons_eq]
    simp [h.1, ih h.2]

lemma lookup_upsert_self (d : List (String × JVal)) (k : String) (v : JVal) :
    (upsert d k v).lookup k = some v := by
  induction d with
  | nil => simp [upsert, lookup_cons_eq]
  | cons hd tl ih =>
    show (if hd.1 = k then (k, v) :: tl else hd :: upsert tl k v).lookup k = some v
    by_cases h : hd.1 = k
    · rw [if_pos h, lookup_cons_eq, if_pos rfl]
    · rw [if_neg h, show hd = (hd.1, hd.2) from rfl, lookup_cons_eq,
        if_neg (fun he => h he.symm)]
      exact ih

lemma lookup_upsert_ne (d : List (String × JVal)) (k k2 : String) (v : JVal)
    (h : k2 ≠ k) : (upsert d k v).lookup k2 = d.lookup k2 := by
  induction d with
  | nil =>
    show ([(k, v)] : List (String × JVal)).lookup k2 = ([] : List (String × JVal)).lookup k2
    rw [lookup_cons_eq, if_neg h]
  | cons hd tl ih =>
    show (if hd.1 = k then (k, v) :: tl else hd :: upsert tl k v).lookup k2 =
      (hd :: tl).lookup k2
    by_cases hh : hd.1 = k
    · rw [if_pos hh, lookup_cons_eq, if_neg h, show hd = (hd.1, hd.2) from rfl,
        lookup_cons_eq, if_neg (fun he => h (he.trans hh))]
    · rw [if_neg hh, show hd = (hd.1, hd.2) from rfl, lookup_cons_eq, lookup_cons_eq]
      by_cases hk : k2 = hd.1
      · simp [hk]
      · simp [hk, ih]

lemma lookup_dictUpdate (u : List (String × JVal)) (d : List (String × JVal)) (k : String)
    (hnd : (u.map Prod.fst).Nodup) :
    (dictUpdate d u).lookup k =
      match u.lookup k with
      | some v => some v
      | none => d.lookup k := by
  induction u generalizing d with
  | nil => simp [dictUpdate, List.lookup]
  | cons hd tl ih =>
    simp only [List.map_cons, List.nodup_cons] at hnd
    have step : dictUpdate d (hd :: tl) = dictUpdate (upsert d hd.1 hd.2) tl := rfl
    rw [step, ih _ hnd.2]
    by_cases hk : k = hd.1
    · have htl : tl.lookup k = none := lookup_none_of_not_mem _ _ (hk ▸ hnd.1)
      rw [htl, show hd = (hd.1, hd.2) from rfl, lookup_cons_eq]
      simp [hk, lookup_upsert_self]
    · rw [show hd = (hd.1, hd.2) from rfl, lookup_cons_eq]
      simp only [hk, if_false]
      cases tl.lookup k with
      | none => simp [lookup_upsert_ne _ _ _ _ hk]
      | some v => simp

lemma lookup_filter_key (p : String → Bool) (data : List (String × JVal)) (k : String) :
    (data.filter (fun kv => ! p kv.1)).lookup k =
      if p k then none else data.lookup k := by
  induction data with
  | nil => simp [List.lookup]
  | cons hd tl ih =>
    rw [show hd = (hd.1, hd.2) from rfl]
    by_cases hp : p hd.1
    · have hstep : List.filter (fun kv => ! p kv.1) ((hd.1, hd.2) :: tl) =
          List.filter (fun kv => ! p kv.1) tl := by
        simp [List.filter_cons, hp]
      rw [hstep, ih, lookup_cons_eq]
      by_cases hk : k = hd.1
      · simp [hk, hp]
      · simp [hk]
    · have hstep : List.filter (fun kv => ! p kv.1) ((hd.1, hd.2) :: tl) =
          (hd.1, hd.2) :: List.filter (fun kv => ! p kv.1) tl := by
        simp [List.filter_cons, hp]
      rw [hstep, lookup_cons_eq, lookup_cons_eq]
      by_cases hk : k = hd.1
      · simp [hk, hp]
      · simp [hk, ih]

/-! ## C4 -/

/-- C4: `Item.to_dict` writes the fixed fields
`{id, name, department, issuedDate, categoryId}` first and then overlays
the dynamic attributes, so for every key bound in the dynamic attributes
the serialized object carries the dynamic value (shadowing a fixed field
of the same name), and every other key resolves to the fixed-field
dictionary; `to_dict` is pure, so the stored fixed fields themselves are
untouched. -/
theorem to_dict_merge_order (it : Item)
    (hnd : (it.dynamic_attributes.map Prod.fst).Nodup) :
    ∀ k : String, it.to_dict.lookup k =
      match it.dynamic_attributes.lookup k with
      | some v => some v
      | none => it.fixedDict.lookup k := by
  intro k
  rw [Item.to_dict]
  by_cases he : it.dynamic_attributes.isEmpty
  · have : it.dynamic_attributes = [] := by
      cases h : it.dynamic_attributes with
      | nil => rfl
      | cons a l => rw [h] at he; simp [List.isEmpty] at he
    simp [he, this, List.lookup]
  · simp only [he, if_false]
    exact lookup_dictUpdate _ _ _ hnd

/-- Witness for C4: an item whose dynamic attributes shadow the reserved
key `id`; the serialized output carries the shadow value while the
stored `id` column still holds `item-1`. -/
theorem to_dict_merge_order_witness :
    (Item.mk "item-1" (JVal.str "Pen") (JVal.str "Sales") ⟨2024, 1, 15⟩ JVal.null
        [("id", JVal.str "shadow")]).to_dict.lookup "id" = some (JVal.str "shadow") ∧
    (Item.mk "item-1" (JVal.str "Pen") (JVal.str "Sales") ⟨2024, 1, 15⟩ JVal.null
        [("id", JVal.str "shadow")]).id = "item-1" := by
  constructor
  · have h := to_dict_merge_order
      (Item.mk "item-1" (JVal.str "Pen") (JVal.str "Sales") ⟨2024, 1, 15⟩ JVal.null
        [("id", JVal.str "shadow")]) (by decide) "id"
    rw [h]
    decide
  · rfl

/-! ## Helper lemmas about `find?` after an update -/

lemma find?_map_replace (item_id : String) (b : Item)
    (hb : (b.id == item_id) = true) (l : List Item) (a : Item)
    (h : l.find? (fun x => x.id == item_id) = some a) :
    (l.map (fun x => if x.id == item_id then b else x)).find?
      (fun x => x.id == item_id) = some b := by
  induction l with
  | nil => simp at h
  | cons hd tl ih =>
    by_cases hhd : (hd.id == item_id) = true
    · rw [List.map_cons, if_pos hhd]
      simp only [List.find?_cons, hb]
    · have hf : (hd.id == item_id) = false := by simpa using hhd
      rw [List.map_cons, if_neg hhd]
      simp only [List.find?_cons, hf] at h ⊢
      exact ih h

/-- What a successful `PUT /api/items/<id>` stores: each core field taken
from the payload when the key is present, the stored value otherwise
(`issuedDate` only when truthy, parsed), and the dynamic attributes
replaced by the non-core payload entries. -/
lemma item_detail_put_ok_spec (db : DB) (item_id : String)
    (data : List (String × JVal)) (cok : Bool) (item : Item)
    (hfind : db.items.find? (fun x => x.id == item_id) = some item)
    (hok : ((item_detail_put db item_id data cok).1).isOk = true) :
    ∃ d : PyDate,
      (if (field data "issuedDate").truthy then fromiso (field data "issuedDate")
       else some item.issued_date) = some d ∧
      (item_detail_put db item_id data cok).2.items.find? (fun x => x.id == item_id) =
        some { id := item.id,
               name := (data.lookup "name").getD item.name,
               department := (data.lookup "department").getD item.department,
               issued_date := d,
               category_id := (data.lookup "categoryId").getD item.category_id,
               dynamic_attributes := data.filter (fun kv => ! coreFields.contains kv.1) } := by
  rcases hdate : (if (field data "issuedDate").truthy then fromiso (field data "issuedDate")
                  else some item.issued_date) with _ | d
  · exfalso
    have hres : item_detail_put db item_id data cok = (ItemRes.unhandled, db) := by
      simp only [item_detail_put, hfind, hdate]
    rw [hres] at hok
    simp [ItemRes.isOk] at hok
  · refine ⟨d, rfl, ?_⟩
    by_cases hc : cok = true ∧
        ((data.lookup "name").getD item.name ≠ JVal.null) ∧
        ((data.lookup "department").getD item.department ≠ JVal.null)
    · have hres : item_detail_put db item_id data cok =
          (ItemRes.ok (Item.to_dict
             { id := item.id,
               name := (data.lookup "name").getD item.name,
               department := (data.lookup "department").getD item.department,
               issued_date := d,
               category_id := (data.lookup "categoryId").getD item.category_id,
               dynamic_attributes := data.filter (fun kv => ! coreFields.contains kv.1) }),
           { db with items := db.items.map (fun x =>
               if x.id == item_id then
                 { id := item.id,
                   name := (data.lookup "name").getD item.name,
                   department := (data.lookup "department").getD item.department,
                   issued_date := d,
                   category_id := (data.lookup "categoryId").getD item.category_id,
                   dynamic_attributes := data.filter (fun kv => ! coreFields.contains kv.1) }
               else x) }) := by
        simp only [item_detail_put, hfind, hdate, if_pos hc]
      rw [hres]
      have hid0 := List.find?_some hfind
      have hid : (item.id == item_id) = true := hid0
      exact find?_map_replace item_id
        { id := item.id, name := (data.lookup "name").getD item.name,
          department := (data.lookup "department").getD item.department,
          issued_date := d,
          category_id := (data.lookup "categoryId").getD item.category_id,
          dynamic_attributes := data.filter (fun kv => ! coreFields.contains kv.1) }
        hid db.items item hfind
    · exfalso
      have hres : item_detail_put db item_id data cok = (ItemRes.serverError, db) := by
        simp only [item_detail_put, hfind, hdate, if_neg hc]
      rw [hres] at hok
      simp [ItemRes.isOk] at hok

/-! ## Concrete databases used by witnesses and counterexamples -/

def itemWA : Item :=
  ⟨"item-1", JVal.str "Pen", JVal.str "Sales", ⟨2024, 1, 15⟩, JVal.null,
   [("color", JVal.str "blue")]⟩

def dbWA : DB := ⟨[], [], [itemWA], 0⟩

def itemW9 : Item :=
  ⟨"item-1", JVal.str "Pen", JVal.str "Sales", ⟨2024, 1, 15⟩, JVal.null, []⟩

def dbW9 : DB := ⟨[], [], [itemW9], 0⟩

/-! ## C3 -/

/-- C3: after a successful `PUT /api/items/<id>`, the stored
dynamic-attribute dictionary binds exactly the payload keys outside
`{name, department, issuedDate, categoryId}`, each to its payload
value: previous dynamic attributes are replaced wholesale, and a payload
with no extra keys leaves none behind. -/
theorem item_update_replaces_dynamic (db : DB) (item_id : String)
    (data : List (String × JVal)) (cok : Bool) (item : Item)
    (hfind : db.items.find? (fun x => x.id == item_id) = some item)
    (hok : ((item_detail_put db item_id data cok).1).isOk = true) :
    ∃ it2 : Item,
      (item_detail_put db item_id data cok).2.items.find?
        (fun x => x.id == item_id) = some it2 ∧
      ∀ k : String, it2.dynamic_attributes.lookup k =
        (if coreFields.contains k then none else data.lookup k) := by
  obtain ⟨d, _, hfind2⟩ := item_detail_put_ok_spec db item_id data cok item hfind hok
  refine ⟨_, hfind2, ?_⟩
  intro k
  exact lookup_filter_key (fun s => coreFields.contains s) data k

/-- Witness for C3: updating an item that stores `color: "blue"` with a
payload `{name: "Pen Deluxe"}` leaves an item with no `color`
attribute. -/
theorem item_update_replaces_dynamic_witness :
    ∃ it2 : Item,
      (item_detail_put dbWA "item-1" [("name", JVal.str "Pen Deluxe")] true).2.items.find?
        (fun x => x.id == "item-1") = some it2 ∧
      it2.dynamic_attributes.lookup "color" = none := by
  obtain ⟨it2, h1, h2⟩ :=
    item_update_replaces_dynamic dbWA "item-1" [("name", JVal.str "Pen Deluxe")] true itemWA
      (by decide) (by decide)
  refine ⟨it2, h1, ?_⟩
  rw [h2 "color"]
  decide

/-! ## C9 -/

/-- C9 counterexample: an update whose payload contains the fixed field
`issuedDate` with the (falsy) value `""` completes with 200, yet the
stored `issuedDate` still holds `2024-01-15` — the present field was not
overwritten with the payload value, contradicting the claim. -/
theorem item_update_fixed_overwrite_cx :
    ((item_detail_put dbW9 "item-1" [("issuedDate", JVal.str "")] true).1).isOk = true ∧
    ([("issuedDate", JVal.str "")] : List (String × JVal)).lookup "issuedDate" =
      some (JVal.str "") ∧
    (item_detail_put dbW9 "item-1" [("issuedDate", JVal.str "")] true).2.items.find?
      (fun x => x.id == "item-1") = some itemW9 ∧
    itemW9.issued_date = ⟨2024, 1, 15⟩ ∧
    JVal.str itemW9.issued_date.isoformat ≠ JVal.str "" := by
  decide

/-- C9 (amended): after a successful update, each of `name`,
`department`, `categoryId` present in the payload overwrites the stored
value and each absent one is kept; `issuedDate` is overwritten (with its
parsed date) only when present with a truthy value — a falsy
`issuedDate` is ignored and the stored date kept; the id never
changes. -/
theorem item_update_fixed_fields (db : DB) (item_id : String)
    (data : List (String × JVal)) (cok : Bool) (item : Item)
    (hfind : db.items.find? (fun x => x.id == item_id) = some item)
    (hok : ((item_detail_put db item_id data cok).1).isOk = true) :
    ∃ it2 : Item,
      (item_detail_put db item_id data cok).2.items.find?
        (fun x => x.id == item_id) = some it2 ∧
      it2.id = item.id ∧
      it2.name = (data.lookup "name").getD item.name ∧
      it2.department = (data.lookup "department").getD item.department ∧
      it2.category_id = (data.lookup "categoryId").getD item.category_id ∧
      ((field data "issuedDate").truthy = false → it2.issued_date = item.issued_date) ∧
      ((field data "issuedDate").truthy = true →
        fromiso (field data "issuedDate") = some it2.issued_date) := by
  obtain ⟨d, hd, hfind2⟩ := item_detail_put_ok_spec db item_id data cok item hfind hok
  refine ⟨_, hfind2, rfl, rfl, rfl, rfl, ?_, ?_⟩
  · intro ht
    simp only [ht, Bool.false_eq_true, if_false] at hd
    injection hd with hd2
    exact hd2.symm
  · intro ht
    simp only [ht, if_true] at hd
    exact hd

/-- Witness for C9 (amended): a successful update that overwrites `name`
and `issuedDate` and keeps the id. -/
theorem item_update_fixed_fields_witness :
    ∃ it2 : Item,
      (item_detail_put dbW9 "item-1"
        [("name", JVal.str "Pen Deluxe"), ("issuedDate", JVal.str "2025-02-28")]
        true).2.items.find? (fun x => x.id == "item-1") = some it2 ∧
      it2.id = "item-1" ∧ it2.name = JVal.str "Pen Deluxe" ∧
      it2.issued_date = ⟨2025, 2, 28⟩ := by
  obtain ⟨it2, h1, h2, h3, _, _, _, h7⟩ :=
    item_update_fixed_fields dbW9 "item-1"
      [("name", JVal.str "Pen Deluxe"), ("issuedDate", JVal.str "2025-02-28")]
      true itemW9 (by decide) (by decide)
  refine ⟨it2, h1, ?_, ?_, ?_⟩
  · rw [h2]; decide
  · rw [h3]; decide
  · have h8 := h7 (by decide)
    have h9 : fromiso (field
        [("name", JVal.str "Pen Deluxe"), ("issuedDate", JVal.str "2025-02-28")]
        "issuedDate") = some (PyDate.mk 2025 2 28) := by decide
    rw [h9] at h8
    injection h8 with h10
    exact h10.symm

/-! ## C8 -/

/-- C8 counterexample: an update payload carrying the non-ISO string
`issuedDate: "not-a-date"` makes `date.fromisoformat` raise outside the
handler's `try`, so the response is an unhandled 500, not the claimed
ValidationError (400); the stored item is unchanged. -/
theorem item_update_invalid_date_cx :
    (item_detail_put dbW9 "item-1" [("issuedDate", JVal.str "not-a-date")] true).1 =
      ItemRes.unhandled ∧
    (item_detail_put dbW9 "item-1" [("issuedDate", JVal.str "not-a-date")] true).1 ≠
      ItemRes.badRequest ∧
    (item_detail_put dbW9 "item-1" [("issuedDate", JVal.str "not-a-date")] true).2 = dbW9 := by
  decide

/-- C8 (amended): whenever the payload of `PUT /api/items/<id>` contains
a truthy `issuedDate` that does not parse as an ISO date, the handler
raises (unhandled 500, not ValidationError) and the store is left
unchanged; a falsy `issuedDate` value is ignored instead of failing. -/
theorem item_update_invalid_date_unhandled (db : DB) (item_id : String)
    (data : List (String × JVal)) (cok : Bool) (item : Item)
    (hfind : db.items.find? (fun x => x.id == item_id) = some item)
    (ht : (field data "issuedDate").truthy = true)
    (hbad : fromiso (field data "issuedDate") = none) :
    (item_detail_put db item_id data cok).1 = ItemRes.unhandled ∧
    (item_detail_put db item_id data cok).2 = db := by
  have hdate : (if (field data "issuedDate").truthy then fromiso (field data "issuedDate")
      else some item.issued_date) = none := by
    simp [ht, hbad]
  have hres : item_detail_put db item_id data cok = (ItemRes.unhandled, db) := by
    simp only [item_detail_put, hfind, hdate]
  exact ⟨by rw [hres], by rw [hres]⟩

/-- Witness for C8 (amended). -/
theorem item_update_invalid_date_unhandled_witness :
    (item_detail_put dbW9 "item-1" [("issuedDate", JVal.str "2024-13-77")] true).1 =
      ItemRes.unhandled ∧
    (item_detail_put dbW9 "item-1" [("issuedDate", JVal.str "2024-13-77")] true).2 = dbW9 :=
  item_update_invalid_date_unhandled dbW9 "item-1"
    [("issuedDate", JVal.str "2024-13-77")] true itemW9 (by decide) (by decide) (by decide)

/-! ## C7 -/

/-- C7 counterexample: `POST /api/items` with all mandatory fields
present but `issuedDate: "not-a-date"` returns the handled 500
(InternalError), not the claimed ValidationError (400); nothing is
persisted. -/
theorem create_item_invalid_date_cx :
    (create_item emptyDB
      [("name", JVal.str "Pen"), ("department", JVal.str "Sales"),
       ("issuedDate", JVal.str "not-a-date")] "item-1" true).1 = ItemRes.serverError ∧
    (create_item emptyDB
      [("name", JVal.str "Pen"), ("department", JVal.str "Sales"),
       ("issuedDate", JVal.str "not-a-date")] "item-1" true).1 ≠ ItemRes.badRequest ∧
    (create_item emptyDB
      [("name", JVal.str "Pen"), ("department", JVal.str "Sales"),
       ("issuedDate", JVal.str "not-a-date")] "item-1" true).2 = emptyDB := by
  decide

/-- C7 (amended): `POST /api/items` returns ValidationError (400) when
`name`, `department` or `issuedDate` is missing (or falsy), and the
handled InternalError (500) when they are present but `issuedDate` does
not parse as an ISO date; in both cases no item is persisted. -/
theorem create_item_validation (db : DB) (data : List (String × JVal))
    (newId : String) (cok : Bool) :
    (¬ ((field data "name").truthy = true ∧ (field data "department").truthy = true ∧
        (field data "issuedDate").truthy = true) →
      (create_item db data newId cok).1 = ItemRes.badRequest ∧
      (create_item db data newId cok).2 = db) ∧
    (((field data "name").truthy = true ∧ (field data "department").truthy = true ∧
        (field data "issuedDate").truthy = true) →
      fromiso (field data "issuedDate") = none →
      (create_item db data newId cok).1 = ItemRes.serverError ∧
      (create_item db data newId cok).2 = db) := by
  constructor
  · intro h
    have hres : create_item db data newId cok = (ItemRes.badRequest, db) := by
      simp only [create_item, if_pos h]
    exact ⟨by rw [hres], by rw [hres]⟩
  · intro h hbad
    have hres : create_item db data newId cok = (ItemRes.serverError, db) := by
      simp only [create_item, if_neg (not_not_intro h), hbad]
    exact ⟨by rw [hres], by rw [hres]⟩

/-- Witness for C7 (amended): an empty payload is rejected with 400, and
a payload with an out-of-range date is rejected with the handled 500. -/
theorem create_item_validation_witness :
    ((create_item emptyDB [] "item-1" true).1 = ItemRes.badRequest ∧
     (create_item emptyDB [] "item-1" true).2 = emptyDB) ∧
    ((create_item emptyDB
        [("name", JVal.str "Pen"), ("department", JVal.str "Sales"),
         ("issuedDate", JVal.str "2024-99-99")] "item-2" true).1 = ItemRes.serverError ∧
     (create_item emptyDB
        [("name", JVal.str "Pen"), ("department", JVal.str "Sales"),
         ("issuedDate", JVal.str "2024-99-99")] "item-2" true).2 = emptyDB) :=
  ⟨(create_item_validation emptyDB [] "item-1" true).1 (by decide),
   (create_item_validation emptyDB
      [("name", JVal.str "Pen"), ("department", JVal.str "Sales"),
       ("issuedDate", JVal.str "2024-99-99")] "item-2" true).2 (by decide) (by decide)⟩

/-! ## C1 -/

def catW1 : Category := ⟨"cat-1", "Office"⟩

def itemWC1 : Item :=
  ⟨"item-1", JVal.str "Pen", JVal.str "Sales", ⟨2024, 1, 15⟩, JVal.str "cat-1", []⟩

def itemWC2 : Item :=
  ⟨"item-2", JVal.str "Pad", JVal.str "HR", ⟨2024, 2, 1⟩, JVal.null,
   [("k", JVal.num 3)]⟩

def dbWC : DB := ⟨[], [catW1], [itemWC1, itemWC2], 0⟩

/-- C1: deleting an existing category is atomic.  Either the transaction
commits — and then every item that referenced the category has its
reference cleared to null, every item still exists with id, name,
department, issuedDate and dynamic attributes unchanged, no item is
added or dropped, and the category row is gone — or the commit fails and
the store is exactly as before (no partial state). -/
theorem category_delete_atomic (db : DB) (cid : String) (cat : Category) (cok : Bool)
    (hfind : db.categories.find? (fun c => c.id == cid) = some cat) :
    ((category_detail db cid cok).1 = CatRes.serverError ∧
     (category_detail db cid cok).2 = db) ∨
    ((category_detail db cid cok).1 = CatRes.noContent ∧
     (∀ c : Category, c ∈ (category_detail db cid cok).2.categories ↔
        (c ∈ db.categories ∧ ¬ c.id = cid)) ∧
     (category_detail db cid cok).2.items.length = db.items.length ∧
     (∀ it : Item, it ∈ db.items → ∃ it2 : Item,
        it2 ∈ (category_detail db cid cok).2.items ∧
        it2.id = it.id ∧ it2.name = it.name ∧ it2.department = it.department ∧
        it2.issued_date = it.issued_date ∧
        it2.dynamic_attributes = it.dynamic_attributes ∧
        it2.category_id =
          (if it.category_id = JVal.str cid then JVal.null else it.category_id))) := by
  cases cok with
  | false =>
    left
    have hres : category_detail db cid false = (CatRes.serverError, db) := by
      simp only [category_detail, hfind, Bool.false_eq_true, if_false]
    exact ⟨by rw [hres], by rw [hres]⟩
  | true =>
    right
    have hres : category_detail db cid true =
        (CatRes.noContent,
         { db with
            items := db.items.map (fun it =>
              if it.category_id = JVal.str cid then { it with category_id := JVal.null }
              else it),
            categories := db.categories.filter (fun c => ! (c.id == cid)) }) := by
      simp only [category_detail, hfind, if_true]
    refine ⟨by rw [hres], ?_, ?_, ?_⟩
    · intro c
      rw [hres]
      show c ∈ db.categories.filter (fun c => ! (c.id == cid)) ↔ _
      rw [List.mem_filter]
      constructor
      · rintro ⟨hc, hf⟩
        exact ⟨hc, by simpa using hf⟩
      · rintro ⟨hc, hne⟩
        exact ⟨hc, by simpa using hne⟩
    · rw [hres]
      exact List.length_map _ _
    · intro it hit
      rw [hres]
      refine ⟨(if it.category_id = JVal.str cid then { it with category_id := JVal.null }
          else it), List.mem_map_of_mem _ hit, ?_, ?_, ?_, ?_, ?_, ?_⟩ <;>
        by_cases h : it.category_id = JVal.str cid <;> simp [h]

/-- Witness for C1: a store with one category and two items, one of them
referencing the category. -/
theorem category_delete_atomic_witness :
    ((category_detail dbWC "cat-1" true).1 = CatRes.serverError ∧
     (category_detail dbWC "cat-1" true).2 = dbWC) ∨
    ((category_detail dbWC "cat-1" true).1 = CatRes.noContent ∧
     (∀ c : Category, c ∈ (category_detail dbWC "cat-1" true).2.categories ↔
        (c ∈ dbWC.categories ∧ ¬ c.id = "cat-1")) ∧
     (category_detail dbWC "cat-1" true).2.items.length = dbWC.items.length ∧
     (∀ it : Item, it ∈ dbWC.items → ∃ it2 : Item,
        it2 ∈ (category_detail dbWC "cat-1" true).2.items ∧
        it2.id = it.id ∧ it2.name = it.name ∧ it2.department = it.department ∧
        it2.issued_date = it.issued_date ∧
        it2.dynamic_attributes = it.dynamic_attributes ∧
        it2.category_id =
          (if it.category_id = JVal.str "cat-1" then JVal.null else it.category_id))) :=
  category_delete_atomic dbWC "cat-1" catW1 true (by decide)

/-! ## Login lemmas and claims C5, C6, C10 -/

lemma find?_map_rewrite_user (un : String) (cred : PwStr) (l : List User) (u : User)
    (hu : u.username = un)
    (h : l.find? (fun v => v.username == un) = some u) :
    (l.map (fun v => if v.username = u.username then { v with password := cred } else v)).find?
      (fun v => v.username == un) = some { u with password := cred } := by
  induction l with
  | nil => simp at h
  | cons hd tl ih =>
    by_cases hhd : (hd.username == un) = true
    · simp only [List.find?_cons, hhd] at h
      injection h with he
      subst he
      rw [List.map_cons, if_pos rfl]
      have h2 : (({ hd with password := cred } : User).username == un) = true := hhd
      simp only [List.find?_cons, h2]
    · have hf : (hd.username == un) = false := by simpa using hhd
      simp only [List.find?_cons, hf] at h
      have hne : ¬ hd.username = u.username := by
        rw [hu]
        intro hh
        rw [hh] at hf
        simp at hf
      rw [List.map_cons, if_neg hne]
      simp only [List.find?_cons, hf]
      exact ih h

def userWH : User := ⟨"u", PwStr.hashed 0 (PwStr.raw "pw"), "buyer"⟩

def dbWU : DB := ⟨[userWH], [], [], 1⟩

def userWP : User := ⟨"p", PwStr.raw "secret", "buyer"⟩

def dbWP : DB := ⟨[userWP], [], [], 5⟩

/-! ## C10 -/

/-- C10: when the request's username field is absent or names no stored
user, login answers with the single 401 "Invalid username or password"
response (the handler has no ValidationError path at all) and the store
is unchanged. -/
theorem login_unknown_username (db : DB) (un : Option String) (pw : Option PwStr)
    (cok : Bool)
    (h : un = none ∨ ∀ u : User, u ∈ db.users → some u.username ≠ un) :
    (login db un pw cok).1 = LoginRes.invalid ∧ (login db un pw cok).2 = db := by
  have hl : userLookup db un = none := by
    rcases h with h | h
    · rw [h]; rfl
    · cases un with
      | none => rfl
      | some s =>
        show db.users.find? (fun v => v.username == s) = none
        rw [List.find?_eq_none]
        intro u hu
        have hne := h u hu
        simp only [ne_eq, Option.some.injEq] at hne
        simpa using hne
  have hres : login db un pw cok = (LoginRes.invalid, db) := by
    simp only [login, hl]
  exact ⟨by rw [hres], by rw [hres]⟩

/-- Witness for C10. -/
theorem login_unknown_username_witness :
    (login dbWU (some "nobody") (some (PwStr.raw "pw")) true).1 = LoginRes.invalid ∧
    (login dbWU (some "nobody") (some (PwStr.raw "pw")) true).2 = dbWU :=
  login_unknown_username dbWU (some "nobody") (some (PwStr.raw "pw")) true
    (Or.inr (by decide))

/-! ## C5 -/

/-- C5 counterexample: the stored credential is a hash and the submitted
password is that very hash string.  It does not verify as a hash (a hash
is not a hash of itself) and the stored credential is not a plaintext
(non-hash) string, so the claim demands AuthError; the code's
byte-for-byte fallback compares the submitted string with the stored
credential regardless and the login succeeds. -/
theorem login_auth_iff_cx :
    (login dbWU (some "u") (some (PwStr.hashed 0 (PwStr.raw "pw"))) true).1 =
      LoginRes.ok "u" "buyer" ∧
    checkPasswordHash (PwStr.hashed 0 (PwStr.raw "pw"))
      (some (PwStr.hashed 0 (PwStr.raw "pw"))) = false ∧
    (∀ s : String, userWH.password ≠ PwStr.raw s) := by
  refine ⟨by decide, by decide, ?_⟩
  intro s
  simp [userWH]

/-- C5 (amended): login answers the 401 AuthError exactly when the
username finds no user, or the submitted password neither verifies
against the stored credential as a salted hash nor equals the stored
credential string byte-for-byte (whether or not that credential is a
hash — the code does not restrict the fallback to non-hash creds);
in every other case it succeeds with the user's {username, role}. -/
theorem login_result_characterization (db : DB) (un : Option String)
    (pw : Option PwStr) (cok : Bool) :
    ((login db un pw cok).1 = LoginRes.invalid ↔
      (userLookup db un = none ∨ ∃ u : User, userLookup db un = some u ∧
        checkPasswordHash u.password pw = false ∧ pw ≠ some u.password)) ∧
    (∀ u : User, userLookup db un = some u →
      (login db un pw cok).1 ≠ LoginRes.invalid →
      (login db un pw cok).1 = LoginRes.ok u.username u.role) := by
  rcases hl : userLookup db un with _ | u
  · have hres : login db un pw cok = (LoginRes.invalid, db) := by
      simp only [login, hl]
    refine ⟨?_, ?_⟩
    · rw [hres]
      simp
    · intro u2 hu2
      exact absurd hu2 (by simp)
  · by_cases hc : checkPasswordHash u.password pw = true
    · have hres : login db un pw cok = (LoginRes.ok u.username u.role, db) := by
        simp [login, hl, hc]
      refine ⟨?_, ?_⟩
      · rw [hres]
        constructor
        · intro h
          exact absurd h (by simp)
        · rintro (h | ⟨u2, hu2, hc2, _⟩)
          · exact absurd h (by simp)
          · cases Option.some.inj hu2
            simp [hc] at hc2
      · intro u2 hu2 _
        cases Option.some.inj hu2
        rw [hres]
    · have hcf : checkPasswordHash u.password pw = false := by
        simpa using hc
      cases pw with
      | none =>
        have hres : login db un none cok = (LoginRes.invalid, db) := by
          simp [login, hl, hcf]
        refine ⟨?_, ?_⟩
        · rw [hres]
          constructor
          · intro _
            exact Or.inr ⟨u, rfl, hcf, by simp⟩
          · intro _
            rfl
        · intro u2 hu2 hne
          rw [hres] at hne
          exact absurd rfl hne
      | some p =>
        by_cases he : u.password = p
        · have hres1 : (login db un (some p) cok).1 = LoginRes.ok u.username u.role := by
            cases cok with
            | false => simp [login, hl, hcf, he]
            | true =>
              simp [login, hl, hcf, he]
              split <;> rfl
          refine ⟨?_, ?_⟩
          · rw [hres1]
            constructor
            · intro h
              exact absurd h (by simp)
            · rintro (h | ⟨u2, hu2, hc2, hpw2⟩)
              · exact absurd h (by simp)
              · cases Option.some.inj hu2
                exact absurd (by rw [he]) hpw2
          · intro u2 hu2 _
            cases Option.some.inj hu2
            rw [hres1]
        · have hres : login db un (some p) cok = (LoginRes.invalid, db) := by
            simp [login, hl, hcf, he]
          refine ⟨?_, ?_⟩
          · rw [hres]
            constructor
            · intro _
              refine Or.inr ⟨u, rfl, hcf, ?_⟩
              intro hh
              exact he (Option.some.inj hh).symm
            · intro _
              rfl
          · intro u2 hu2 hne
            rw [hres] at hne
            exact absurd rfl hne

/-- Witness for C5 (amended): a correct hash login succeeds with
{username, role}. -/
theorem login_result_characterization_witness :
    (login dbWU (some "u") (some (PwStr.raw "pw")) true).1 = LoginRes.ok "u" "buyer" :=
  (login_result_characterization dbWU (some "u") (some (PwStr.raw "pw")) true).2
    userWH (by decide) (by decide)

/-! ## C6 -/

/-- C6: the plaintext-credential migration in login is one-way and
idempotent.  With a stored plaintext credential equal to the submitted
password, login succeeds whether or not the rewrite commit persists (a
persistence failure leaves the store unchanged but still answers 200);
after the rewrite persists, the stored credential is a fresh salted hash
of the password, that hash now verifies, and replaying the same login
succeeds through the hash branch with no further state change — the
plaintext branch never fires again for that user. -/
theorem login_plaintext_migration (db : DB) (un s : String) (u : User)
    (hfind : db.users.find? (fun v => v.username == un) = some u)
    (hplain : u.password = PwStr.raw s) :
    (∀ cok : Bool,
      (login db (some un) (some (PwStr.raw s)) cok).1 = LoginRes.ok u.username u.role) ∧
    (login db (some un) (some (PwStr.raw s)) false).2 = db ∧
    (login db (some un) (some (PwStr.raw s)) true).2.users.find?
        (fun v => v.username == un) =
      some { u with password := PwStr.hashed db.nextSalt (PwStr.raw s) } ∧
    checkPasswordHash (PwStr.hashed db.nextSalt (PwStr.raw s))
      (some (PwStr.raw s)) = true ∧
    (∀ cok2 : Bool,
      login (login db (some un) (some (PwStr.raw s)) true).2
          (some un) (some (PwStr.raw s)) cok2 =
        (LoginRes.ok u.username u.role,
         (login db (some un) (some (PwStr.raw s)) true).2)) := by
  have hl : userLookup db (some un) = some u := hfind
  have hcheck : checkPasswordHash u.password (some (PwStr.raw s)) = false := by
    rw [hplain]
    rfl
  have hu : u.username = un := by
    have h0 := List.find?_some hfind
    simpa using h0
  have hdb2 : (login db (some un) (some (PwStr.raw s)) true).2 =
      { db with
         users := db.users.map (fun v =>
           if v.username = u.username then
             { v with password := PwStr.hashed db.nextSalt (PwStr.raw s) }
           else v),
         nextSalt := db.nextSalt + 1 } := by
    simp [login, hl, hplain, checkPasswordHash]
  have hfind2 : (login db (some un) (some (PwStr.raw s)) true).2.users.find?
      (fun v => v.username == un) =
      some { u with password := PwStr.hashed db.nextSalt (PwStr.raw s) } := by
    rw [hdb2]
    exact find?_map_rewrite_user un (PwStr.hashed db.nextSalt (PwStr.raw s)) db.users u hu hfind
  refine ⟨?_, ?_, hfind2, by simp [checkPasswordHash], ?_⟩
  · intro cok
    cases cok <;> simp [login, hl, hplain, checkPasswordHash]
  · simp [login, hl, hplain, checkPasswordHash]
  · intro cok2
    have hl2 : userLookup (login db (some un) (some (PwStr.raw s)) true).2 (some un) =
        some { u with password := PwStr.hashed db.nextSalt (PwStr.raw s) } := hfind2
    generalize hg : (login db (some un) (some (PwStr.raw s)) true).2 = db2 at hl2 ⊢
    simp [login, hl2, checkPasswordHash]

/-- Witness for C6. -/
theorem login_plaintext_migration_witness :
    (login dbWP (some "p") (some (PwStr.raw "secret")) true).1 = LoginRes.ok "p" "buyer" ∧
    login (login dbWP (some "p") (some (PwStr.raw "secret")) true).2
        (some "p") (some (PwStr.raw "secret")) true =
      (LoginRes.ok "p" "buyer", (login dbWP (some "p") (some (PwStr.raw "secret")) true).2) := by
  obtain ⟨h1, _, _, _, h5⟩ :=
    login_plaintext_migration dbWP "p" "secret" userWP (by decide) (by decide)
  exact ⟨h1 true, h5 true⟩

/-! ## C2: the at-most-one-admin invariant -/

lemma users_create_category (db : DB) (n : Option String) (newId : String) (cok : Bool) :
    (create_category db n newId cok).2.users = db.users := by
  unfold create_category
  split
  · rfl
  · split
    · rfl
    · split <;> rfl

lemma users_category_detail (db : DB) (cid : String) (cok : Bool) :
    (category_detail db cid cok).2.users = db.users := by
  unfold category_detail
  split
  · rfl
  · split <;> rfl

lemma users_create_item (db : DB) (data : List (String × JVal)) (newId : String) (cok : Bool) :
    (create_item db data newId cok).2.users = db.users := by
  unfold create_item
  split
  · rfl
  · split
    · rfl
    · split <;> rfl

lemma users_item_detail_put (db : DB) (iid : String) (data : List (String × JVal)) (cok : Bool) :
    (item_detail_put db iid data cok).2.users = db.users := by
  unfold item_detail_put
  split
  · rfl
  · split
    · rfl
    · dsimp only
      split <;> rfl

lemma users_item_detail_delete (db : DB) (iid : String) (cok : Bool) :
    (item_detail_delete db iid cok).2.users = db.users := by
  unfold item_detail_delete
  split
  · rfl
  · split <;> rfl

lemma countP_role_map_password (l : List User) (unm : String) (cred : PwStr) :
    (l.map (fun v => if v.username = unm then { v with password := cred } else v)).countP
      (fun v => v.role == "admin") = l.countP (fun v => v.role == "admin") := by
  rw [List.countP_map]
  refine List.countP_congr ?_
  intro v _
  by_cases h : v.username = unm <;> simp [h]

lemma adminCount_login (db : DB) (un : Option String) (pw : Option PwStr) (cok : Bool) :
    adminCount (login db un pw cok).2 = adminCount db := by
  unfold login
  split
  · rfl
  · split
    · rfl
    · split
      · split
        · split
          · unfold adminCount
            exact countP_role_map_password db.users _ _
          · rfl
        · rfl
      · rfl

lemma adminCount_register_le (db : DB) (un : Option String) (pw : Option PwStr)
    (r : Option String) (cok : Bool) (h : adminCount db ≤ 1) :
    adminCount (register db un pw r cok).2 ≤ 1 := by
  cases un with
  | none => exact h
  | some u2n =>
    cases pw with
    | none => exact h
    | some p =>
      by_cases h1 : u2n = "" ∨ p.truthy = false ∨
          ¬ (r.getD "buyer" = "admin" ∨ r.getD "buyer" = "buyer")
      · have hres : (register db (some u2n) (some p) r cok).2 = db := by
          simp only [register, if_pos h1]
        rw [hres]; exact h
      · by_cases h2 : (db.users.find? (fun v => v.username == u2n)).isSome = true
        · have hres : (register db (some u2n) (some p) r cok).2 = db := by
            simp only [register, if_neg h1, if_pos h2]
          rw [hres]; exact h
        · by_cases h3 : r.getD "buyer" = "admin" ∧
              (db.users.find? (fun v => v.role == "admin")).isSome = true
          · have hres : (register db (some u2n) (some p) r cok).2 = db := by
              simp only [register, if_neg h1, if_neg h2, if_pos h3]
            rw [hres]; exact h
          · cases cok with
            | false =>
              have hres : (register db (some u2n) (some p) r false).2 = db := by
                simp only [register, if_neg h1, if_neg h2, if_neg h3,
                  Bool.false_eq_true, if_false]
              rw [hres]; exact h
            | true =>
              have hres : (register db (some u2n) (some p) r true).2 =
                  { db with
                     users := db.users ++ [⟨u2n, PwStr.hashed db.nextSalt p, r.getD "buyer"⟩],
                     nextSalt := db.nextSalt + 1 } := by
                simp only [register, if_neg h1, if_neg h2, if_neg h3, if_true]
              rw [hres]
              unfold adminCount at h ⊢
              rw [List.countP_append]
              by_cases hr : r.getD "buyer" = "admin"
              · have hnone : db.users.find? (fun v => v.role == "admin") = none := by
                  rcases hf : db.users.find? (fun v => v.role == "admin") with _ | x
                  · exact hf
                  · exact absurd ⟨hr, by rw [hf]; rfl⟩ h3
                have hzero : db.users.countP (fun v => v.role == "admin") = 0 := by
                  rw [List.countP_eq_zero]
                  intro a ha
                  have := List.find?_eq_none.mp hnone a ha
                  simpa using this
                rw [hzero]
                simp [List.countP_cons, hr]
              · have hone : ([(⟨u2n, PwStr.hashed db.nextSalt p, r.getD "buyer"⟩ : User)] :
                    List User).countP (fun v => v.role == "admin") = 0 := by
                  simp [List.countP_cons, hr]
                rw [hone]
                simpa using h

/-- States reachable by HTTP operations alone keep at most one admin. -/
lemma reach_admin_le (b : Bool) (db : DB) (h : Reach b db) :
    b = false → adminCount db ≤ 1 := by
  induction h with
  | step_init b => intro _; decide
  | step_register b db un pw r cok hr ih =>
    intro hb
    exact adminCount_register_le db un pw r cok (ih hb)
  | step_login b db un pw cok hr ih =>
    intro hb
    rw [adminCount_login]
    exact ih hb
  | step_bootstrap db cok hr ih =>
    intro hb
    simp at hb
  | step_create_category b db n newId cok hr ih =>
    intro hb
    unfold adminCount
    rw [users_create_category]
    exact ih hb
  | step_category_detail b db cid cok hr ih =>
    intro hb
    unfold adminCount
    rw [users_category_detail]
    exact ih hb
  | step_create_item b db data newId cok hr ih =>
    intro hb
    unfold adminCount
    rw [users_create_item]
    exact ih hb
  | step_item_detail_put b db iid data cok hr ih =>
    intro hb
    unfold adminCount
    rw [users_item_detail_put]
    exact ih hb
  | step_item_detail_delete b db iid cok hr ih =>
    intro hb
    unfold adminCount
    rw [users_item_detail_delete]
    exact ih hb

/-- The state reached by registering an admin named `alice` on an empty
store and then running the startup bootstrap once (e.g. after a process
restart). -/
def dbTwoAdmins : DB :=
  bootstrap (register emptyDB (some "alice") (some (PwStr.raw "pw")) (some "admin") true).2 true

/-- C2 counterexample: registering role=admin under the name `alice` on
an empty store succeeds, and the startup bootstrap — whose guard checks
only for the USERNAME `admin`, not for the role — then creates a second
admin account, so a state with two role=admin users is reachable. -/
theorem admin_invariant_cx :
    Reach true dbTwoAdmins ∧ adminCount dbTwoAdmins = 2 := by
  constructor
  · show Reach true (bootstrap
      (register emptyDB (some "alice") (some (PwStr.raw "pw")) (some "admin") true).2 true)
    exact Reach.step_bootstrap _ _ (Reach.step_register _ _ _ _ _ _ (Reach.step_init _))
  · decide

def userAdm : User := ⟨"alice", PwStr.hashed 0 (PwStr.raw "pw"), "admin"⟩

def dbAdm : DB := ⟨[userAdm], [], [], 1⟩

/-- C2 (amended): every state reachable through the HTTP-exposed
operations alone has at most one role=admin user, and registration with
role=admin while an admin exists always fails with a ConflictError
(409 username-taken or 403 admin-exists) leaving the store unchanged;
the startup bootstrap, however, checks only for the username `admin`,
so running it after an admin with a different username was registered
creates a second admin. -/
theorem admin_invariant_http :
    (∀ db : DB, Reach false db → adminCount db ≤ 1) ∧
    (∀ (db : DB) (un : String) (pw : PwStr) (cok : Bool),
      un ≠ "" → pw.truthy = true →
      (∃ u : User, u ∈ db.users ∧ u.role = "admin") →
      ((register db (some un) (some pw) (some "admin") cok).1 = RegRes.conflictUsername ∨
       (register db (some un) (some pw) (some "admin") cok).1 = RegRes.conflictAdmin) ∧
      (register db (some un) (some pw) (some "admin") cok).2 = db) := by
  constructor
  · intro db h
    exact reach_admin_le false db h rfl
  · intro db un pw cok h1 h2 hex
    by_cases hname : (db.users.find? (fun v => v.username == un)).isSome = true
    · have hres : register db (some un) (some pw) (some "admin") cok =
          (RegRes.conflictUsername, db) := by
        simp [register, h1, h2, hname]
      exact ⟨Or.inl (by rw [hres]), by rw [hres]⟩
    · obtain ⟨u, hu, hrole⟩ := hex
      have hadm : (db.users.find? (fun v => v.role == "admin")).isSome = true := by
        rw [List.find?_isSome]
        exact ⟨u, hu, by simp [hrole]⟩
      have hres : register db (some un) (some pw) (some "admin") cok =
          (RegRes.conflictAdmin, db) := by
        simp [register, h1, h2, hname, hadm]
      exact ⟨Or.inr (by rw [hres]), by rw [hres]⟩

/-- Witness for C2 (amended). -/
theorem admin_invariant_http_witness :
    adminCount emptyDB ≤ 1 ∧
    ((register dbAdm (some "bob") (some (PwStr.raw "pw")) (some "admin") true).1 =
        RegRes.conflictUsername ∨
     (register dbAdm (some "bob") (some (PwStr.raw "pw")) (some "admin") true).1 =
        RegRes.conflictAdmin) ∧
    (register dbAdm (some "bob") (some (PwStr.raw "pw")) (some "admin") true).2 = dbAdm := by
  refine ⟨admin_invariant_http.1 emptyDB (Reach.step_init false), ?_, ?_⟩
  · exact (admin_invariant_http.2 dbAdm "bob" (PwStr.raw "pw") true (by decide) (by decide)
      ⟨userAdm, by decide, rfl⟩).1
  · exact (admin_invariant_http.2 dbAdm "bob" (PwStr.raw "pw") true (by decide) (by decide)
      ⟨userAdm, by decide, rfl⟩).2

end Stationery
